import Mathlib

/-!
Verification development for the decision-and-governance layer of the
AI_Software_Engineer repository: confidence scoring
(`app/agents/confidence.py`), policy resolution
(`app/agents/engineering_mode.py`), plan auditing
(`app/agents/plan_auditor.py`), structural safety verification
(`app/analysis/safety_verifier.py`) and CI retry policy
(`app/ci/retry_engine.py`), shallowly embedded in Lean.

Python floats are embedded as rationals (every literal in the scoring
and threshold code is a decimal constant, and every comparison in the
properties below is robust to the embedding), Python ints as `Int`,
strings as `String`, lists as `List`, and `None`-able values as
`Option`.
-/

namespace AISWE

/-! ## Confidence scorer — `app/agents/confidence.py` -/

/-- Mirror of the `ConfidenceInputs` dataclass. -/
structure ConfidenceInputs where
  used_stack_trace : Bool
  stack_trace_function_resolved : Bool
  changed_files_count : Int
  impacted_files_count : Int
  ast_verified : Bool
  safety_verified : Bool
  used_llm : Bool
  used_rule_based : Bool
  file_lines : Int
deriving DecidableEq

/-- The strict eight-gate conjunction computed as `perfect` at the end of
`compute_confidence`. -/
def perfectGate (x : ConfidenceInputs) : Bool :=
  x.used_stack_trace
    && (x.changed_files_count == 1)
    && (x.impacted_files_count == 0)
    && x.ast_verified
    && x.safety_verified
    && x.used_rule_based
    && (!x.used_llm)
    && (decide (x.file_lines ≤ 300))

/-- Mirror of `compute_confidence`: additive scoring, clamp to [0,1], then
the strict override returning 1.0 when all eight gates hold. -/
def compute_confidence (x : ConfidenceInputs) : ℚ :=
  let score : ℚ := 0
  let score := score + (if x.used_stack_trace then (30 : ℚ)/100 else (10 : ℚ)/100)
  let score := score + (if x.stack_trace_function_resolved then (10 : ℚ)/100 else 0)
  let score := score + (if x.ast_verified then (20 : ℚ)/100 else 0)
  let score := score + (if x.safety_verified then (20 : ℚ)/100 else 0)
  let score := score + (if x.used_rule_based then (15 : ℚ)/100 else 0)
  let score := score - (if x.used_llm then (15 : ℚ)/100 else 0)
  let score := score +
    (if x.changed_files_count = 1 then (5 : ℚ)/100 else -((30 : ℚ)/100))
  let score := score +
    (if x.impacted_files_count = 0 then (5 : ℚ)/100
     else if x.impacted_files_count ≤ 3 then 0 else -((20 : ℚ)/100))
  let score := score +
    (if x.file_lines ≤ 300 then (5 : ℚ)/100
     else if x.file_lines ≤ 800 then 0 else -((10 : ℚ)/100))
  let score := if score < 0 then 0 else score
  let score := if score > 1 then 1 else score
  if perfectGate x then 1 else score

/-! ## CI outcome classification and retry policy — `app/ci/retry_engine.py` -/

/-- Mirror of the `CIOutcome` dataclass. -/
structure CIOutcome where
  category : String
  failing_files : List String
  failing_tests : List String
  message_excerpt : String
deriving DecidableEq

/-- Mirror of the `RetryDecision` dataclass; `backoff_seconds` defaults
to 300 in the source. -/
structure RetryDecision where
  should_retry : Bool
  reason : String
  backoff_seconds : Int := 300
deriving DecidableEq

/-- Parsed CI evidence as consumed by `classify_ci_outcome`
(`failing_files_ranked`, `failing_tests_ranked`, `excerpt`; each may be
`None`, and `x or []` / `x or ""` collapses an empty value the same way
`Option.getD` does here). -/
structure CIEvidence where
  failing_files_ranked : Option (List String)
  failing_tests_ranked : Option (List String)
  excerpt : Option String

/-- `s.lower()` for the ASCII vocabularies matched below. -/
def strLower (s : String) : String := ⟨s.data.map Char.toLower⟩

/-- `s.strip()`: drop leading and trailing whitespace. -/
def pyStrip (s : String) : String :=
  ⟨((s.data.dropWhile Char.isWhitespace).reverse.dropWhile Char.isWhitespace).reverse⟩

/-- Contiguous-substring test on character lists: the embedding of
Python's `x in msg`. -/
def charsContain (needle : List Char) : List Char → Bool
  | [] => needle.isEmpty
  | c :: rest => needle.isPrefixOf (c :: rest) || charsContain needle rest

/-- `needle in hay` on strings. -/
def strContains (hay needle : String) : Bool :=
  charsContain needle.data hay.data

/-- The infra vocabulary of `classify_ci_outcome`. -/
def infraVocab : List String := ["timeout", "network", "infra", "runner", "cache fail"]

/-- The flaky vocabulary of `classify_ci_outcome`. -/
def flakyVocab : List String := ["flake", "flaky", "random"]

/-- Mirror of `classify_ci_outcome`: first-match-wins rule table over the
lowered excerpt, then the file/test counts. -/
def classify_ci_outcome (e : CIEvidence) : CIOutcome :=
  let files := e.failing_files_ranked.getD []
  let tests := e.failing_tests_ranked.getD []
  let exc := e.excerpt.getD ""
  let msg := strLower exc
  let cat :=
    if infraVocab.any (fun x => strContains msg x) then "infra"
    else if flakyVocab.any (fun x => strContains msg x) then "flaky"
    else if files.length = 0 ∧ tests.length > 0 then "unit_fail"
    else if files.length > 0 then "legit"
    else "unknown"
  ⟨cat, files, tests, exc.take 500⟩

/-- Mirror of `should_retry_from_ci`. The Python function can only build
`RetryDecision`s with the default 300-second backoff or an explicit 300,
so every arm here carries 300. -/
def should_retry_from_ci : Option CIOutcome → Int → RetryDecision
  | none, _ => ⟨false, "No CI evidence", 300⟩
  | some outcome, previous_attempts =>
    let cat := outcome.category
    if cat = "infra" ∨ cat = "flaky" then
      if previous_attempts < 3 then ⟨true, "Retry allowed for " ++ cat, 300⟩
      else ⟨false, "Retry limit reached for " ++ cat, 300⟩
    else if cat = "legit" then
      ⟨false, "Failure appears real → no auto-retry", 300⟩
    else if previous_attempts = 0 then
      ⟨true, "Uncertain → One retry allowed", 300⟩
    else
      ⟨false, "Unknown + retries already done", 300⟩

/-! ## Policy resolver — `app/agents/engineering_mode.py` -/

/-- Mirror of the `ModePolicy` dataclass. -/
structure ModePolicy where
  name : String
  max_steps : Int
  max_file_mutations : Int
  max_unique_paths_mutated : Int
  allow_delete_file : Bool
  allow_apply_patch : Bool
  require_approval_before_pr : Bool
  require_verification_for_pr : Bool
deriving DecidableEq

/-- The value found under the `"confidence"` key of an intent dict:
either something `float()` rejects, or a numeric value. -/
inductive ConfVal
  | notAFloat
  | val (q : ℚ)
deriving DecidableEq

/-- An intent object as `_get_confidence` sees it: not a dict at all, or
a dict whose `"confidence"` key is absent or holds a `ConfVal`. -/
inductive IntentObj
  | notADict
  | dict (confidence : Option ConfVal)
deriving DecidableEq

/-- Mirror of `_get_confidence`: non-dicts, the missing key and
unconvertible values all collapse to 0.0. -/
def get_confidence : Option IntentObj → ℚ
  | none => 0
  | some IntentObj.notADict => 0
  | some (IntentObj.dict none) => 0
  | some (IntentObj.dict (some ConfVal.notAFloat)) => 0
  | some (IntentObj.dict (some (ConfVal.val q))) => q

/-- The SAFE policy literal from `resolve_engineering_mode`. -/
def safePolicy : ModePolicy :=
  ⟨"SAFE", 18, 3, 2, false, false, true, true⟩

/-- The STANDARD policy literal from `resolve_engineering_mode`. -/
def standardPolicy : ModePolicy :=
  ⟨"STANDARD", 35, 8, 6, false, false, true, true⟩

/-- The AGGRESSIVE policy literal from `resolve_engineering_mode`. -/
def aggressivePolicy : ModePolicy :=
  ⟨"AGGRESSIVE", 70, 20, 15, true, true, false, true⟩

/-- The ordered-threshold body of `resolve_engineering_mode`. -/
def resolveFromConfidence (c : ℚ) : ModePolicy :=
  if c < (55 : ℚ)/100 then safePolicy
  else if c < (80 : ℚ)/100 then standardPolicy
  else aggressivePolicy

/-- Mirror of `resolve_engineering_mode`. -/
def resolve_engineering_mode (intent_obj : Option IntentObj) : ModePolicy :=
  resolveFromConfidence (get_confidence intent_obj)

/-- The intent objects that `_get_confidence` treats as malformed or
missing: no object at all, a non-dict, a dict without a `"confidence"`
key, or a `"confidence"` value that `float()` rejects. -/
def malformedIntent : Option IntentObj → Bool
  | none => true
  | some IntentObj.notADict => true
  | some (IntentObj.dict none) => true
  | some (IntentObj.dict (some ConfVal.notAFloat)) => true
  | some (IntentObj.dict (some (ConfVal.val _))) => false

/-! ## Safety verifier — `app/analysis/safety_verifier.py`

`verify_safe_change` delegates parsing to the Python standard library
(`ast.parse`) and line diffing to `difflib.unified_diff`; both are
external to this repository, so a content value is embedded as the
outcome of those calls: whether the text is blank, whether the lowered
text contains a denylisted substring, the parsed top-level body when
parsing succeeds, and the diff is an explicit function parameter.  The
repository's own logic — the check order, the two signature functions
and the budget comparison — is embedded verbatim. -/

/-- One top-level node of a parsed Python module, as far as
`_imports_signature` and `_top_defs_signature` discriminate them. -/
inductive TopNode
  | imp (names : List String)
  | impFrom (module : Option String) (level : Int) (names : List String)
  | fnDef (name : String)
  | afnDef (name : String)
  | clsDef (name : String)
  | other
deriving DecidableEq

/-- A parsed module: its top-level body. -/
structure PyModule where
  body : List TopNode
deriving DecidableEq

/-- A text content as `verify_safe_change` observes it. -/
structure Content where
  isBlank : Bool
  hasForbidden : Bool
  parsed : Option PyModule
deriving DecidableEq

/-- One entry of the imports signature. -/
inductive ImpSigEntry
  | imp (names : List String)
  | fromImp (module : Option String) (level : Int) (names : List String)
deriving DecidableEq

/-- One entry of the top-level definitions signature (kind + name). -/
inductive DefSigEntry
  | fn (name : String)
  | afn (name : String)
  | cls (name : String)
deriving DecidableEq

/-- `sorted(...)` on alias names. -/
def sortNames (names : List String) : List String :=
  names.mergeSort (fun a b => a ≤ b)

/-- Mirror of `_imports_signature`: the ordered tuple of import
statements, alias names sorted within each statement. -/
def imports_signature (m : PyModule) : List ImpSigEntry :=
  m.body.filterMap fun n =>
    match n with
    | TopNode.imp names => some (ImpSigEntry.imp (sortNames names))
    | TopNode.impFrom module level names =>
        some (ImpSigEntry.fromImp module level (sortNames names))
    | _ => none

/-- Mirror of `_top_defs_signature`: the ordered tuple of top-level
function/async-function/class definitions. -/
def top_defs_signature (m : PyModule) : List DefSigEntry :=
  m.body.filterMap fun n =>
    match n with
    | TopNode.fnDef name => some (DefSigEntry.fn name)
    | TopNode.afnDef name => some (DefSigEntry.afn name)
    | TopNode.clsDef name => some (DefSigEntry.cls name)
    | _ => none

/-- Mirror of `verify_safe_change`, parameterised by the changed-line
count that `difflib.unified_diff` would report for the two contents. -/
def verify_safe_change (diffChangedLines : Content → Content → Int)
    (old_content new_content : Content) (max_changed_lines : Int) :
    Bool × String :=
  if new_content.isBlank then (false, "Empty new content")
  else if new_content.hasForbidden then (false, "Forbidden substring detected")
  else
    match old_content.parsed with
    | none => (false, "Old content failed to parse as Python")
    | some old_ast =>
      match new_content.parsed with
      | none => (false, "New content failed to parse as Python")
      | some new_ast =>
        if imports_signature new_ast ≠ imports_signature old_ast then
          (false, "Imports changed (not allowed)")
        else if top_defs_signature new_ast ≠ top_defs_signature old_ast then
          (false, "Top-level function/class definitions changed (not allowed)")
        else if diffChangedLines old_content new_content > max_changed_lines then
          (false, "Too many changed lines")
        else (true, "OK")

/-! ## Plan auditor — `app/agents/plan_auditor.py`

`PlanStep.args` is a Python `Dict[str, Any]`; the auditor only ever reads
the `"path"` and `"status"` keys and only ever discriminates string
values, `None`, and dicts, so an argument value is embedded as the sum
`PyVal` (with the `str()` rendering of anything else carried explicitly)
and an argument map as an association list. -/

/-- A plan-step argument value. -/
inductive PyVal
  | vstr (s : String)
  | vnone
  | vdict
  | vother (str_repr : String)
deriving DecidableEq

/-- `str(v)` for an argument value; dict contents are irrelevant to every
comparison the auditor makes, so they render as `\x7b\x7d`. -/
def pyStr : Option PyVal → String
  | none => "None"
  | some (PyVal.vstr s) => s
  | some PyVal.vnone => "None"
  | some PyVal.vdict => "dict"
  | some (PyVal.vother r) => r

/-- Mirror of the `PlanStep` dataclass. -/
structure PlanStep where
  op : String
  args : List (String × PyVal)
deriving DecidableEq

/-- Mirror of the `ExecutionPlan` dataclass. -/
structure ExecutionPlan where
  intent : String
  action : String
  steps : List PlanStep
  notes : String
deriving DecidableEq

/-- Mirror of the `AuditResult` dataclass. -/
structure AuditResult where
  ok : Bool
  reason : String
  plan : ExecutionPlan
deriving DecidableEq

/-- `(s.args or {}).get(key)`. -/
def argGet (s : PlanStep) (key : String) : Option PyVal :=
  (s.args.find? (fun kv => kv.1 == key)).map (fun kv => kv.2)

/-- The `FILE_MUTATION_OPS` module constant. -/
def FILE_MUTATION_OPS : List String :=
  ["CREATE_FILE", "EDIT_FILE", "APPLY_PATCH", "DELETE_FILE", "APPEND_FILE"]

/-- The `CONTROL_OPS` module constant. -/
def CONTROL_OPS : List String :=
  ["SET_STATUS", "WAIT_FOR_APPROVAL", "COMMIT_PUSH_PR"]

/-- The `VERIFY_OPS` module constant. -/
def VERIFY_OPS : List String :=
  ["VERIFY_CMD", "VERIFY_FILE_EXISTS", "VERIFY_HTTP_ENDPOINT"]

/-- Mirror of `_plan_has_op`. -/
def plan_has_op (plan : ExecutionPlan) (op : String) : Bool :=
  plan.steps.any (fun s => s.op == op)

/-- The path a step contributes to the mutated-path set: present exactly
when `args.get("path")` is a string with non-blank strip. -/
def stepPath (s : PlanStep) : Option String :=
  match argGet s "path" with
  | some (PyVal.vstr p) => if pyStrip p ≠ "" then some (pyStrip p) else none
  | _ => none

/-- Mirror of `_collect_mutation_paths`: the number of file-mutation
steps and the set (here: deduplicated list) of their non-blank paths. -/
def collect_mutation_paths (plan : ExecutionPlan) : Nat × List String :=
  (plan.steps.countP (fun s => FILE_MUTATION_OPS.contains s.op),
   ((plan.steps.filter (fun s => FILE_MUTATION_OPS.contains s.op)).filterMap stepPath).dedup)

/-- `next((i for i, s in enumerate(steps) if p s), None)`. -/
def firstIdxWith (p : PlanStep → Bool) : List PlanStep → Option Nat
  | [] => none
  | s :: rest => if p s then some 0 else (firstIdxWith p rest).map (· + 1)

/-- The predicate `s.op == op`. -/
def isOp (op : String) (s : PlanStep) : Bool := s.op == op

/-- The predicate `s.op == "SET_STATUS" and str((s.args or \x7b\x7d).get("status")) == "PROPOSED"`. -/
def isProposedStatus (s : PlanStep) : Bool :=
  s.op == "SET_STATUS" && pyStr (argGet s "status") == "PROPOSED"

/-- The `SET_STATUS(PROPOSED)` step the gate injects. -/
def proposedStep : PlanStep := ⟨"SET_STATUS", [("status", PyVal.vstr "PROPOSED")]⟩

/-- The `WAIT_FOR_APPROVAL` step the gate injects. -/
def waitStep : PlanStep := ⟨"WAIT_FOR_APPROVAL", []⟩

/-- The `CAPTURE_DIFF` step the gate injects. -/
def captureDiffStep : PlanStep := ⟨"CAPTURE_DIFF", []⟩

/-- The `SET_STATUS(FAILED)` step of a forced-failure plan. -/
def failedStatusStep : PlanStep := ⟨"SET_STATUS", [("status", PyVal.vstr "FAILED")]⟩

/-- The fresh `ANALYZE_REPO` step `_force_fail` creates when the plan
does not already start with one. -/
def analyzeFallbackStep : PlanStep := ⟨"ANALYZE_REPO", [("repo_facts", PyVal.vdict)]⟩

/-- Mirror of `_ensure_pr_approval_gate`. -/
def ensure_pr_approval_gate (plan : ExecutionPlan) : ExecutionPlan :=
  if !(plan_has_op plan "COMMIT_PUSH_PR") then plan
  else
    let steps := plan.steps
    match firstIdxWith (isOp "COMMIT_PUSH_PR") steps with
    | none => plan
    | some pr_idx =>
      let has_wait := (steps.take (pr_idx + 1)).any (isOp "WAIT_FOR_APPROVAL")
      if has_wait then
        let steps' :=
          match firstIdxWith (isOp "WAIT_FOR_APPROVAL") steps with
          | none => steps
          | some wait_idx =>
            if (steps.take wait_idx).any isProposedStatus then steps
            else steps.take wait_idx ++ proposedStep :: steps.drop wait_idx
        ⟨plan.intent, plan.action, steps', plan.notes⟩
      else
        let ins :=
          (if plan_has_op plan "CAPTURE_DIFF" then [] else [captureDiffStep]) ++
          [proposedStep, waitStep]
        ⟨plan.intent, plan.action, steps.take pr_idx ++ ins ++ steps.drop pr_idx, plan.notes⟩

/-- Mirror of `_force_fail`. -/
def force_fail (plan : ExecutionPlan) (reason : String) : AuditResult :=
  let first :=
    match plan.steps with
    | s :: _ => if s.op == "ANALYZE_REPO" then s else analyzeFallbackStep
    | [] => analyzeFallbackStep
  let steps := [first, failedStatusStep]
  let notes := pyStrip plan.notes
  let notes :=
    if notes ≠ "" then notes ++ " | AUDIT_FAIL: " ++ reason
    else "AUDIT_FAIL: " ++ reason
  ⟨false, reason, ⟨plan.intent, plan.action, steps, notes⟩⟩

/-- Mirror of `_strip_disallowed_ops`. -/
def strip_disallowed_ops (plan : ExecutionPlan) (disallowed : List String) :
    ExecutionPlan × List String :=
  (⟨plan.intent, plan.action,
      plan.steps.filter (fun s => !(disallowed.contains s.op)), plan.notes⟩,
   (plan.steps.filter (fun s => disallowed.contains s.op)).map (fun s => s.op))

/-- Mirror of `_audit_scope`. -/
def audit_scope (plan : ExecutionPlan) (policy : ModePolicy) : Option String :=
  if (plan.steps.length : Int) > policy.max_steps then
    some ("plan too large: steps=" ++ toString plan.steps.length ++ " > "
      ++ toString policy.max_steps)
  else
    let mp := collect_mutation_paths plan
    if (mp.1 : Int) > policy.max_file_mutations then
      some ("too many file mutations: mutations=" ++ toString mp.1 ++ " > "
        ++ toString policy.max_file_mutations)
    else if (mp.2.length : Int) > policy.max_unique_paths_mutated then
      some ("too many unique files touched: unique_paths=" ++ toString mp.2.length
        ++ " > " ++ toString policy.max_unique_paths_mutated)
    else none

/-- Mirror of `_audit_permissions`. -/
def audit_permissions (plan : ExecutionPlan) (policy : ModePolicy) : Option String :=
  if !policy.allow_delete_file && plan_has_op plan "DELETE_FILE" then
    some "DELETE_FILE not allowed in this mode"
  else if !policy.allow_apply_patch && plan_has_op plan "APPLY_PATCH" then
    some "APPLY_PATCH not allowed in this mode"
  else none

/-- Mirror of `_audit_pr_governance`. -/
def audit_pr_governance (plan : ExecutionPlan) (policy : ModePolicy) : ExecutionPlan :=
  if policy.require_approval_before_pr then ensure_pr_approval_gate plan
  else plan

/-- The set of operations stripped by `audit_plan`'s permission-rewrite
branch, built from the policy's permission flags. -/
def disallowedFor (policy : ModePolicy) : List String :=
  (if policy.allow_delete_file then [] else ["DELETE_FILE"]) ++
  (if policy.allow_apply_patch then [] else ["APPLY_PATCH"])

/-- `s.op not in ("ANALYZE_REPO", "SET_STATUS")`: the step counts as
meaningful work. -/
def meaningfulStep (s : PlanStep) : Bool :=
  !(s.op == "ANALYZE_REPO") && !(s.op == "SET_STATUS")

/-- The permission branch of `audit_plan` (its step 2): strip disallowed
ops, or force failure when the remainder is degenerate.  The Python
early `return` inside the branch is rendered as the `Except.error`
constructor carrying the forced-failure plan. -/
def auditPermPhase (plan : ExecutionPlan) (policy : ModePolicy) :
    Except ExecutionPlan ExecutionPlan :=
  match audit_permissions plan policy with
  | none => Except.ok plan
  | some perm_err =>
    let sr := strip_disallowed_ops plan (disallowedFor policy)
    let rewritten := sr.1
    let removed := sr.2
    let meaningful := rewritten.steps.any meaningfulStep
    if meaningful = false ∨ rewritten.steps.length ≤ 2 then
      Except.error (force_fail plan
        (perm_err ++ "; removed=" ++ toString removed ++ " left no meaningful steps")).plan
    else
      Except.ok ⟨rewritten.intent, rewritten.action, rewritten.steps,
        pyStrip (rewritten.notes ++ " | AUDIT_REWRITE: stripped=" ++ toString removed
          ++ " mode=" ++ policy.name)⟩

/-- The trailing verification-expectation block of `audit_plan`: only
ever appends a note, never touches the steps. -/
def auditFinalize (plan3 : ExecutionPlan) (policy : ModePolicy) : ExecutionPlan :=
  if policy.require_verification_for_pr && plan_has_op plan3 "COMMIT_PUSH_PR" then
    if !(plan3.steps.any (fun s => VERIFY_OPS.contains s.op))
        && policy.require_approval_before_pr then
      ⟨plan3.intent, plan3.action, plan3.steps,
        pyStrip (plan3.notes ++ " | AUDIT_NOTE: no VERIFY ops present; relying on approval gate")⟩
    else plan3
  else plan3

/-- Mirror of `audit_plan`: scope fail-fast, permission strip-or-fail,
governance injection, post-rewrite scope re-check, verification note. -/
def audit_plan (plan : ExecutionPlan) (policy : ModePolicy) : ExecutionPlan :=
  match audit_scope plan policy with
  | some scope_err => (force_fail plan scope_err).plan
  | none =>
    match auditPermPhase plan policy with
    | Except.error failed => failed
    | Except.ok plan2 =>
      let plan3 := audit_pr_governance plan2 policy
      match audit_scope plan3 policy with
      | some scope_err2 => (force_fail plan3 ("post-rewrite: " ++ scope_err2)).plan
      | none => auditFinalize plan3 policy

/-- A plan whose approval gate is already satisfied, exactly as
`_ensure_pr_approval_gate` tests it: either no `COMMIT_PUSH_PR`, or a
`WAIT_FOR_APPROVAL` occurs at or before the first `COMMIT_PUSH_PR` and a
`SET_STATUS(PROPOSED)` occurs before the first `WAIT_FOR_APPROVAL`. -/
def planGated (plan : ExecutionPlan) : Bool :=
  match firstIdxWith (isOp "COMMIT_PUSH_PR") plan.steps with
  | none => true
  | some pr_idx =>
    (plan.steps.take (pr_idx + 1)).any (isOp "WAIT_FOR_APPROVAL") &&
    (match firstIdxWith (isOp "WAIT_FOR_APPROVAL") plan.steps with
     | none => false
     | some wait_idx => (plan.steps.take wait_idx).any isProposedStatus)

/-! ## Derived predicates and concrete instances used by the theorems -/

/-- `p` is no more permissive than `q`: every numeric limit of `p` is at
most that of `q`, every permission `p` grants is granted by `q`, and
every governance requirement `q` imposes is imposed by `p`. -/
def noMorePermissive (p q : ModePolicy) : Prop :=
  p.max_steps ≤ q.max_steps ∧
  p.max_file_mutations ≤ q.max_file_mutations ∧
  p.max_unique_paths_mutated ≤ q.max_unique_paths_mutated ∧
  (p.allow_delete_file = true → q.allow_delete_file = true) ∧
  (p.allow_apply_patch = true → q.allow_apply_patch = true) ∧
  (q.require_approval_before_pr = true → p.require_approval_before_pr = true) ∧
  (q.require_verification_for_pr = true → p.require_verification_for_pr = true)

/-- An input passing every gate of `compute_confidence` except zero blast
radius (`impacted_files_count = 2`), with the non-gate
`stack_trace_function_resolved` credit also present. -/
def confBugInput : ConfidenceInputs := ⟨true, true, 1, 2, true, true, false, true, 120⟩

/-- A `COMMIT_PUSH_PR` step. -/
def prStep : PlanStep := ⟨"COMMIT_PUSH_PR", []⟩

/-- An `ANALYZE_REPO` step with empty repo facts. -/
def analyzeStep : PlanStep := ⟨"ANALYZE_REPO", [("repo_facts", PyVal.vdict)]⟩

/-- An `EDIT_FILE` step on `a.py`. -/
def editStep : PlanStep := ⟨"EDIT_FILE", [("path", PyVal.vstr "a.py")]⟩

/-- A `DELETE_FILE` step on `b.py`. -/
def delStep : PlanStep := ⟨"DELETE_FILE", [("path", PyVal.vstr "b.py")]⟩

/-- A `RUN_TESTS_SAFE` step. -/
def runTestsStep : PlanStep := ⟨"RUN_TESTS_SAFE", []⟩

/-- A plan whose `WAIT_FOR_APPROVAL` already precedes its
`COMMIT_PUSH_PR` but that has no `CAPTURE_DIFF` anywhere. -/
def planWaitPr : ExecutionPlan := ⟨"i", "a", [waitStep, prStep], ""⟩

/-- An in-scope plan with a `COMMIT_PUSH_PR` and neither an approval wait
nor a diff capture. -/
def planUngated : ExecutionPlan := ⟨"i", "a", [analyzeStep, editStep, prStep], ""⟩

/-- An in-scope plan carrying a disallowed `DELETE_FILE` along with a
`COMMIT_PUSH_PR`. -/
def planDeletePr : ExecutionPlan :=
  ⟨"i", "a", [analyzeStep, editStep, delStep, runTestsStep, prStep], ""⟩

/-- An in-scope plan carrying a disallowed `DELETE_FILE` and no
`COMMIT_PUSH_PR`. -/
def planDeleteNoPr : ExecutionPlan :=
  ⟨"i", "a", [analyzeStep, editStep, delStep, runTestsStep], ""⟩

/-- A plan that carries the `CAPTURE_DIFF`, `SET_STATUS(PROPOSED)`,
`WAIT_FOR_APPROVAL` sequence immediately before its `COMMIT_PUSH_PR`
step, but whose first `WAIT_FOR_APPROVAL` is an earlier stray one. -/
def planStrayWait : ExecutionPlan :=
  ⟨"i", "a", [waitStep, captureDiffStep, proposedStep, waitStep, prStep], ""⟩

/-- A fully gated plan. -/
def planFullyGated : ExecutionPlan :=
  ⟨"i", "a", [analyzeStep, captureDiffStep, proposedStep, waitStep, prStep], ""⟩

/-- A 19-step plan, above the SAFE limit of 18. -/
def planTooLarge : ExecutionPlan :=
  ⟨"i", "a", List.replicate 19 runTestsStep, "n"⟩

/-- A module whose sole top-level statement is `import os`. -/
def moduleImportOs : PyModule := ⟨[TopNode.imp ["os"]]⟩

/-- A module with an empty top-level body. -/
def moduleEmpty : PyModule := ⟨[]⟩

/-- A parseable, non-blank, denylist-free content wrapping a module. -/
def contentOf (m : PyModule) : Content := ⟨false, false, some m⟩

/-- The value `audit_plan`'s permission branch returns when the stripped
plan keeps meaningful work: the stripped steps plus the rewrite note
naming the removed operations. -/
def strippedPlanWithNote (plan : ExecutionPlan) (policy : ModePolicy) : ExecutionPlan :=
  ⟨plan.intent, plan.action,
   (strip_disallowed_ops plan (disallowedFor policy)).1.steps,
   pyStrip (plan.notes ++ " | AUDIT_REWRITE: stripped="
     ++ toString (strip_disallowed_ops plan (disallowedFor policy)).2
     ++ " mode=" ++ policy.name)⟩

/-! ## Helper lemmas -/

/-- A successful first-index search implies a positive `any`. -/
lemma any_of_firstIdxWith {p : PlanStep → Bool} {l : List PlanStep} {k : Nat}
    (h : firstIdxWith p l = some k) : l.any p = true := by
  induction l generalizing k with
  | nil => simp [firstIdxWith] at h
  | cons s t ih =>
    cases hp : p s with
    | true => simp [List.any_cons, hp]
    | false =>
      rw [firstIdxWith, hp] at h
      simp only [Bool.false_eq_true, if_false, Option.map_eq_some'] at h
      obtain ⟨j, hj, _⟩ := h
      simp [List.any_cons, hp, ih hj]

/-- A positive `any` yields a first index. -/
lemma firstIdxWith_of_any {p : PlanStep → Bool} {l : List PlanStep}
    (h : l.any p = true) : ∃ k, firstIdxWith p l = some k := by
  induction l with
  | nil => simp at h
  | cons s t ih =>
    cases hp : p s with
    | true => exact ⟨0, by simp [firstIdxWith, hp]⟩
    | false =>
      rw [List.any_cons, hp, Bool.false_or] at h
      obtain ⟨k, hk⟩ := ih h
      exact ⟨k + 1, by simp [firstIdxWith, hp, hk]⟩

/-- The forced-failure plan is exactly one analysis step followed by the
failed-status step. -/
lemma force_fail_steps (p : ExecutionPlan) (r : String) :
    ∃ a, (force_fail p r).plan.steps = [a, failedStatusStep] ∧ a.op = "ANALYZE_REPO" := by
  cases hs : p.steps with
  | nil => exact ⟨analyzeFallbackStep, by simp [force_fail, hs], rfl⟩
  | cons s t =>
    cases hop : s.op == "ANALYZE_REPO" with
    | false => exact ⟨analyzeFallbackStep, by simp [force_fail, hs, hop], rfl⟩
    | true =>
      refine ⟨s, by simp [force_fail, hs, hop], ?_⟩
      exact (beq_iff_eq).mp hop

/-- The forced-failure plan's notes: the stripped old notes with the
reason appended. -/
lemma force_fail_notes (p : ExecutionPlan) (r : String) :
    (force_fail p r).plan.notes =
      (if pyStrip p.notes ≠ "" then pyStrip p.notes ++ " | AUDIT_FAIL: " ++ r
       else "AUDIT_FAIL: " ++ r) := by
  unfold force_fail
  by_cases hne : pyStrip p.notes ≠ ""
  · simp [hne]
  · push_neg at hne
    simp [hne]

/-- The mutation-step count is the matching `countP`. -/
lemma collect_mutation_paths_fst (p : ExecutionPlan) :
    (collect_mutation_paths p).1 =
      p.steps.countP (fun s => FILE_MUTATION_OPS.contains s.op) := rfl

/-- The mutated-path set is the deduplicated path list. -/
lemma collect_mutation_paths_snd (p : ExecutionPlan) :
    (collect_mutation_paths p).2 =
      ((p.steps.filter (fun s => FILE_MUTATION_OPS.contains s.op)).filterMap stepPath).dedup :=
  rfl

/-- `audit_scope` passes exactly when all three limits are respected. -/
lemma audit_scope_eq_none_iff (plan : ExecutionPlan) (policy : ModePolicy) :
    audit_scope plan policy = none ↔
      ((plan.steps.length : Int) ≤ policy.max_steps ∧
       ((collect_mutation_paths plan).1 : Int) ≤ policy.max_file_mutations ∧
       (((collect_mutation_paths plan).2.length : Int) ≤ policy.max_unique_paths_mutated)) := by
  simp only [audit_scope]
  split_ifs with h1 h2 h3 <;> simp <;> omega

/-- `audit_scope` only reads the step list. -/
lemma audit_scope_congr {p q : ExecutionPlan} (policy : ModePolicy) (h : p.steps = q.steps) :
    audit_scope p policy = audit_scope q policy := by
  unfold audit_scope collect_mutation_paths
  rw [h]

/-- `plan_has_op` only reads the step list. -/
lemma plan_has_op_congr {p q : ExecutionPlan} (op : String) (h : p.steps = q.steps) :
    plan_has_op p op = plan_has_op q op := by
  unfold plan_has_op
  rw [h]

/-- `audit_permissions` only reads the step list. -/
lemma audit_permissions_congr {p q : ExecutionPlan} (policy : ModePolicy)
    (h : p.steps = q.steps) :
    audit_permissions p policy = audit_permissions q policy := by
  unfold audit_permissions plan_has_op
  rw [h]

/-- `planGated` only reads the step list. -/
lemma planGated_congr {p q : ExecutionPlan} (h : p.steps = q.steps) :
    planGated p = planGated q := by
  unfold planGated
  rw [h]

/-- Deduplicated length is monotone under sublists. -/
lemma dedup_length_le_of_sublist {α : Type} [DecidableEq α] {l1 l2 : List α}
    (h : List.Sublist l1 l2) : l1.dedup.length ≤ l2.dedup.length := by
  have h1 : l1.toFinset ⊆ l2.toFinset := by
    intro a ha
    rw [List.mem_toFinset] at ha ⊢
    exact h.subset ha
  have h2 := Finset.card_le_card h1
  simpa [List.card_toFinset] using h2

/-- Passing the scope check is preserved by taking a sublist of the
steps. -/
lemma audit_scope_none_sublist {p q : ExecutionPlan} {policy : ModePolicy}
    (hsub : List.Sublist q.steps p.steps) (h : audit_scope p policy = none) :
    audit_scope q policy = none := by
  rw [audit_scope_eq_none_iff] at h ⊢
  obtain ⟨h1, h2, h3⟩ := h
  refine ⟨?_, ?_, ?_⟩
  · have := hsub.length_le
    omega
  · rw [collect_mutation_paths_fst] at h2 ⊢
    have := hsub.countP_le (fun s => FILE_MUTATION_OPS.contains s.op)
    omega
  · rw [collect_mutation_paths_snd] at h3 ⊢
    have hsub2 := (hsub.filter (fun s => FILE_MUTATION_OPS.contains s.op)).filterMap stepPath
    have := dedup_length_le_of_sublist hsub2
    omega

/-- A vanished op stays vanished after filtering. -/
lemma any_filter_eq_false {l : List PlanStep} {p q : PlanStep → Bool}
    (h : l.any p = false) : (l.filter q).any p = false := by
  rw [List.any_eq_false] at h ⊢
  exact fun x hx => h x (List.mem_of_mem_filter hx)

/-- Without a `COMMIT_PUSH_PR` step the gate injection is the
identity. -/
lemma ensure_gate_no_pr {p : ExecutionPlan} (h : plan_has_op p "COMMIT_PUSH_PR" = false) :
    ensure_pr_approval_gate p = p := by
  unfold ensure_pr_approval_gate
  rw [h]
  rfl

/-- Without a `COMMIT_PUSH_PR` step the governance phase is the
identity. -/
lemma audit_pr_governance_no_pr {p : ExecutionPlan} (policy : ModePolicy)
    (h : plan_has_op p "COMMIT_PUSH_PR" = false) :
    audit_pr_governance p policy = p := by
  unfold audit_pr_governance
  split_ifs with hr
  · exact ensure_gate_no_pr h
  · rfl

/-- The verification-expectation block never changes the steps. -/
lemma auditFinalize_steps (p : ExecutionPlan) (policy : ModePolicy) :
    (auditFinalize p policy).steps = p.steps := by
  unfold auditFinalize
  split_ifs <;> rfl

/-- Without a `COMMIT_PUSH_PR` step the verification-expectation block
is the identity. -/
lemma auditFinalize_no_pr {p : ExecutionPlan} (policy : ModePolicy)
    (h : plan_has_op p "COMMIT_PUSH_PR" = false) :
    auditFinalize p policy = p := by
  unfold auditFinalize
  rw [h]
  simp

/-- Computing a first index through an all-negative prefix. -/
lemma firstIdxWith_append_allFalse {p : PlanStep → Bool} {E : List PlanStep}
    (hE : ∀ s ∈ E, p s = false) (F : List PlanStep) :
    firstIdxWith p (E ++ F) = (firstIdxWith p F).map (· + E.length) := by
  induction E with
  | nil =>
    simp only [List.nil_append, List.length_nil]
    cases firstIdxWith p F <;> simp
  | cons s t ih =>
    have hs : p s = false := hE s (List.mem_cons_self s t)
    rw [List.cons_append, firstIdxWith, hs]
    simp only [Bool.false_eq_true, if_false]
    rw [ih (fun y hy => hE y (List.mem_cons_of_mem s hy))]
    cases firstIdxWith p F <;> simp [Nat.add_assoc]

/-- A first index behind a known all-negative prefix. -/
lemma firstIdxWith_prefix_false {p : PlanStep → Bool} {E F : List PlanStep} {j : Nat}
    (hE : ∀ s ∈ E, p s = false) (hF : firstIdxWith p F = some j) :
    firstIdxWith p (E ++ F) = some (E.length + j) := by
  rw [firstIdxWith_append_allFalse hE, hF]
  simp [Nat.add_comm]

/-- Taking past a whole left factor. -/
lemma take_append_len {α : Type} (E F : List α) (m : Nat) :
    (E ++ F).take (E.length + m) = E ++ F.take m := by
  rw [List.take_append_eq_append_take, List.take_of_length_le (by omega),
    Nat.add_sub_cancel_left]

/-- What a successful first-index search says about the list: everything
before the index fails the predicate and the element there satisfies
it. -/
lemma firstIdxWith_decomp {p : PlanStep → Bool} {l : List PlanStep} {k : Nat}
    (h : firstIdxWith p l = some k) :
    k < l.length ∧ (∀ s ∈ l.take k, p s = false) ∧
    ∃ x, l.drop k = x :: l.drop (k + 1) ∧ p x = true := by
  induction l generalizing k with
  | nil => simp [firstIdxWith] at h
  | cons s t ih =>
    cases hp : p s with
    | true =>
      rw [firstIdxWith, hp] at h
      simp only [if_true] at h
      have hk : k = 0 := (Option.some.inj h).symm
      subst hk
      exact ⟨Nat.succ_pos _, by simp, s, by simp, hp⟩
    | false =>
      rw [firstIdxWith, hp] at h
      simp only [Bool.false_eq_true, if_false, Option.map_eq_some'] at h
      obtain ⟨j, hj, hk⟩ := h
      subst hk
      obtain ⟨h1, h2, x, hx1, hx2⟩ := ih hj
      refine ⟨by simpa using Nat.succ_lt_succ h1, ?_, x, ?_, hx2⟩
      · intro y hy
        rw [List.take_succ_cons] at hy
        rcases List.mem_cons.mp hy with rfl | hy'
        · exact hp
        · exact h2 y hy'
      · simpa [List.drop_succ_cons] using hx1

/-- A step matching one operation tag fails the test for any other. -/
lemma isOp_ne {s : PlanStep} {a b : String} (h : isOp a s = true) (hne : a ≠ b) :
    isOp b s = false := by
  unfold isOp at h ⊢
  have hop : s.op = a := beq_iff_eq.mp h
  rw [hop]
  exact beq_eq_false_iff_ne.mpr (fun hc => hne hc)

/-- `any` ignores an inserted element that fails the predicate. -/
lemma any_insertMiddle (l1 l2 : List PlanStep) (t : PlanStep) (f : PlanStep → Bool)
    (ht : f t = false) :
    (l1 ++ t :: l2).any f = (l1 ++ l2).any f := by
  simp [List.any_append, List.any_cons, ht]

/-- The plan obtained by injecting non-PR work `I` followed by a
`WAIT_FOR_APPROVAL` right before the first `COMMIT_PUSH_PR` is gated,
provided `I` carries a `SET_STATUS(PROPOSED)`. -/
lemma gated_of_inject (q : ExecutionPlan) (l : List PlanStep) (k : Nat) (I : List PlanStep)
    (hq : q.steps = l.take k ++ (I ++ [waitStep]) ++ l.drop k)
    (hA : ∀ s ∈ l.take k, isOp "COMMIT_PUSH_PR" s = false)
    (hAW : ∀ s ∈ l.take k, isOp "WAIT_FOR_APPROVAL" s = false)
    (hx : ∃ x, l.drop k = x :: l.drop (k + 1) ∧ isOp "COMMIT_PUSH_PR" x = true)
    (hI_noW : ∀ s ∈ I, isOp "WAIT_FOR_APPROVAL" s = false)
    (hI_noPR : ∀ s ∈ I, isOp "COMMIT_PUSH_PR" s = false)
    (hI_prop : I.any isProposedStatus = true) :
    planGated q = true := by
  obtain ⟨x, hxd, hxPR⟩ := hx
  have hEPR : ∀ s ∈ l.take k ++ (I ++ [waitStep]), isOp "COMMIT_PUSH_PR" s = false := by
    intro s hs
    rcases List.mem_append.mp hs with hs | hs
    · exact hA s hs
    · rcases List.mem_append.mp hs with hs | hs
      · exact hI_noPR s hs
      · rw [List.mem_singleton.mp hs]; decide
  have hE2W : ∀ s ∈ l.take k ++ I, isOp "WAIT_FOR_APPROVAL" s = false := by
    intro s hs
    rcases List.mem_append.mp hs with hs | hs
    · exact hAW s hs
    · exact hI_noW s hs
  have hassoc : q.steps = (l.take k ++ I) ++ (waitStep :: l.drop k) := by
    rw [hq]
    simp [List.append_assoc]
  have hprF : firstIdxWith (isOp "COMMIT_PUSH_PR") (l.drop k) = some 0 := by
    rw [hxd, firstIdxWith, hxPR]
    rfl
  have hpr : firstIdxWith (isOp "COMMIT_PUSH_PR") q.steps
      = some ((l.take k ++ (I ++ [waitStep])).length + 0) := by
    rw [hq]
    exact firstIdxWith_prefix_false hEPR hprF
  have hwiF : firstIdxWith (isOp "WAIT_FOR_APPROVAL") (waitStep :: l.drop k) = some 0 := by
    rw [firstIdxWith]
    rfl
  have hwi : firstIdxWith (isOp "WAIT_FOR_APPROVAL") q.steps
      = some ((l.take k ++ I).length + 0) := by
    rw [hassoc]
    exact firstIdxWith_prefix_false hE2W hwiF
  have hw0 : isOp "WAIT_FOR_APPROVAL" waitStep = true := by decide
  unfold planGated
  simp only [hpr, hwi]
  rw [Bool.and_eq_true]
  constructor
  · have h1 : (l.take k ++ (I ++ [waitStep])).length + 0 + 1
        = (l.take k ++ (I ++ [waitStep])).length + 1 := by omega
    rw [h1, hq, take_append_len]
    simp [List.any_append, hw0]
  · rw [hassoc, take_append_len]
    simp [List.any_append, hI_prop]

/-- The plan obtained by inserting a `SET_STATUS(PROPOSED)` right before
the first `WAIT_FOR_APPROVAL` is gated when that wait precedes the first
`COMMIT_PUSH_PR`. -/
lemma gated_of_insert_prop (q : ExecutionPlan) (l : List PlanStep) (w k : Nat)
    (hq : q.steps = l.take w ++ proposedStep :: l.drop w)
    (hwk : w < k)
    (hA : ∀ s ∈ l.take k, isOp "COMMIT_PUSH_PR" s = false)
    (hx : ∃ x, l.drop k = x :: l.drop (k + 1) ∧ isOp "COMMIT_PUSH_PR" x = true)
    (hWf : ∀ s ∈ l.take w, isOp "WAIT_FOR_APPROVAL" s = false)
    (hy : ∃ y, l.drop w = y :: l.drop (w + 1) ∧ isOp "WAIT_FOR_APPROVAL" y = true) :
    planGated q = true := by
  obtain ⟨x, hxd, hxPR⟩ := hx
  obtain ⟨y, hyd, hyW⟩ := hy
  have hyPR : isOp "COMMIT_PUSH_PR" y = false := isOp_ne hyW (by decide)
  have hpropW : isOp "WAIT_FOR_APPROVAL" proposedStep = false := by decide
  have hpropPR : isOp "COMMIT_PUSH_PR" proposedStep = false := by decide
  have hpropP : isProposedStatus proposedStep = true := by decide
  -- the rewritten list, split before the wait step
  have hq2 : q.steps = (l.take w ++ [proposedStep]) ++ (y :: l.drop (w + 1)) := by
    rw [hq, hyd]
    simp [List.append_assoc]
  -- elements of take w also sit in take k
  have htakesub : ∀ s ∈ l.take w, s ∈ l.take k := by
    intro s hs
    have hrw : l.take w = (l.take k).take w := by
      rw [List.take_take]
      congr 1
      omega
    rw [hrw] at hs
    exact List.mem_of_mem_take hs
  have hE1W : ∀ s ∈ l.take w ++ [proposedStep], isOp "WAIT_FOR_APPROVAL" s = false := by
    intro s hs
    rcases List.mem_append.mp hs with hs | hs
    · exact hWf s hs
    · rw [List.mem_singleton.mp hs]
      exact hpropW
  have hE2PR : ∀ s ∈ (l.take w ++ [proposedStep]) ++ [y],
      isOp "COMMIT_PUSH_PR" s = false := by
    intro s hs
    rcases List.mem_append.mp hs with hs | hs
    · rcases List.mem_append.mp hs with hs | hs
      · exact hA s (htakesub s hs)
      · rw [List.mem_singleton.mp hs]
        exact hpropPR
    · rw [List.mem_singleton.mp hs]
      exact hyPR
  -- the wait index of the rewritten list
  have hwiF : firstIdxWith (isOp "WAIT_FOR_APPROVAL") (y :: l.drop (w + 1)) = some 0 := by
    rw [firstIdxWith, hyW]
    rfl
  have hwi : firstIdxWith (isOp "WAIT_FOR_APPROVAL") q.steps
      = some ((l.take w ++ [proposedStep]).length + 0) := by
    rw [hq2]
    exact firstIdxWith_prefix_false hE1W hwiF
  -- the PR sits inside the tail after the wait
  have hxmem : x ∈ l.drop (w + 1) := by
    have hx1 : x ∈ (l.drop (w + 1)).drop (k - (w + 1)) := by
      rw [List.drop_drop]
      have hkk : w + 1 + (k - (w + 1)) = k := by omega
      rw [hkk, hxd]
      exact List.mem_cons_self x (l.drop (k + 1))
    exact List.drop_subset _ _ hx1
  have hanyPR : (l.drop (w + 1)).any (isOp "COMMIT_PUSH_PR") = true := by
    rw [List.any_eq_true]
    exact ⟨x, hxmem, hxPR⟩
  obtain ⟨j, hj⟩ := firstIdxWith_of_any hanyPR
  have hq3 : q.steps = ((l.take w ++ [proposedStep]) ++ [y]) ++ l.drop (w + 1) := by
    rw [hq2]
    simp [List.append_assoc]
  have hpr : firstIdxWith (isOp "COMMIT_PUSH_PR") q.steps
      = some (((l.take w ++ [proposedStep]) ++ [y]).length + j) := by
    rw [hq3]
    exact firstIdxWith_prefix_false hE2PR hj
  unfold planGated
  simp only [hpr, hwi]
  rw [Bool.and_eq_true]
  constructor
  · have h1 : ((l.take w ++ [proposedStep]) ++ [y]).length + j + 1
        = ((l.take w ++ [proposedStep]) ++ [y]).length + (j + 1) := by omega
    rw [h1, hq3, take_append_len]
    have hyW2 : (((l.take w ++ [proposedStep]) ++ [y])).any (isOp "WAIT_FOR_APPROVAL")
        = true := by
      rw [List.any_eq_true]
      exact ⟨y, by simp, hyW⟩
    simp [List.any_append, List.any_eq_true] at hyW2 ⊢
    tauto
  · rw [hq2, take_append_len]
    simp [List.any_append, hpropP]

/-- `plan_has_op` through the `isOp` spelling. -/
lemma plan_has_op_eq_any_isOp (p : ExecutionPlan) (op : String) :
    plan_has_op p op = p.steps.any (isOp op) := rfl

/-- The gate injection leaves an already-gated plan untouched. -/
lemma ensure_gate_of_gated {p : ExecutionPlan} (h : planGated p = true) :
    ensure_pr_approval_gate p = p := by
  cases hhas : plan_has_op p "COMMIT_PUSH_PR" with
  | false => exact ensure_gate_no_pr hhas
  | true =>
    have hhas2 := hhas
    rw [plan_has_op_eq_any_isOp] at hhas2
    obtain ⟨k, hpr⟩ := firstIdxWith_of_any hhas2
    unfold planGated at h
    rw [hpr] at h
    obtain ⟨hw, hrest⟩ := Bool.and_eq_true_iff.mp h
    unfold ensure_pr_approval_gate
    rw [hhas]
    simp only [Bool.not_true, Bool.false_eq_true, if_false, hpr, hw, if_true]
    cases hwi : firstIdxWith (isOp "WAIT_FOR_APPROVAL") p.steps with
    | none =>
      simp only [hwi]
    | some w =>
      have hrest2 : (p.steps.take w).any isProposedStatus = true := by
        rw [hwi] at hrest
        exact hrest
      simp only [hwi, hrest2, if_true]


/-- The gate injection always produces a gated plan. -/
lemma ensure_gate_gated (p : ExecutionPlan) :
    planGated (ensure_pr_approval_gate p) = true := by
  cases hhas : plan_has_op p "COMMIT_PUSH_PR" with
  | false =>
    rw [ensure_gate_no_pr hhas]
    unfold planGated
    cases hpr : firstIdxWith (isOp "COMMIT_PUSH_PR") p.steps with
    | none => simp only [hpr]
    | some k =>
      have hany := any_of_firstIdxWith hpr
      rw [plan_has_op_eq_any_isOp, hany] at hhas
      exact absurd hhas (by decide)
  | true =>
    have hhas2 := hhas
    rw [plan_has_op_eq_any_isOp] at hhas2
    obtain ⟨k, hpr⟩ := firstIdxWith_of_any hhas2
    obtain ⟨hk, hA, x, hxd, hxPR⟩ := firstIdxWith_decomp hpr
    unfold ensure_pr_approval_gate
    rw [hhas]
    simp only [Bool.not_true, Bool.false_eq_true, if_false, hpr]
    cases hw : (p.steps.take (k + 1)).any (isOp "WAIT_FOR_APPROVAL") with
    | false =>
      simp only [hw, Bool.false_eq_true, if_false]
      refine gated_of_inject _ p.steps k
        ((if plan_has_op p "CAPTURE_DIFF" then [] else [captureDiffStep]) ++ [proposedStep])
        ?_ hA ?_ ⟨x, hxd, hxPR⟩ ?_ ?_ ?_
      · show p.steps.take k ++
          ((if plan_has_op p "CAPTURE_DIFF" = true then [] else [captureDiffStep])
            ++ [proposedStep, waitStep]) ++ p.steps.drop k = _
        simp [List.append_assoc]
      · intro s hs
        have hsk1 : s ∈ p.steps.take (k + 1) := by
          have hrw : p.steps.take k = (p.steps.take (k + 1)).take k := by
            rw [List.take_take]
            congr 1
            omega
          rw [hrw] at hs
          exact List.mem_of_mem_take hs
        rw [List.any_eq_false] at hw
        simpa using hw s hsk1
      · cases hc : plan_has_op p "CAPTURE_DIFF" with
        | false => decide
        | true => decide
      · cases hc : plan_has_op p "CAPTURE_DIFF" with
        | false => decide
        | true => decide
      · cases hc : plan_has_op p "CAPTURE_DIFF" with
        | false => decide
        | true => decide
    | true =>
      simp only [hw, if_true]
      have hanyW : p.steps.any (isOp "WAIT_FOR_APPROVAL") = true := by
        rw [List.any_eq_true] at hw ⊢
        obtain ⟨z, hz, hzw⟩ := hw
        exact ⟨z, List.mem_of_mem_take hz, hzw⟩
      obtain ⟨w, hwi⟩ := firstIdxWith_of_any hanyW
      obtain ⟨hwl, hWf, y, hyd, hyW⟩ := firstIdxWith_decomp hwi
      simp only [hwi]
      cases hprop : (p.steps.take w).any isProposedStatus with
      | true =>
        simp only [hprop, if_true]
        have hcongr : planGated ⟨p.intent, p.action, p.steps, p.notes⟩ = planGated p :=
          planGated_congr rfl
        rw [hcongr]
        unfold planGated
        rw [hpr]
        simp only [hw]
        rw [hwi]
        simp only [hprop, Bool.and_self]
      | false =>
        simp only [hprop, Bool.false_eq_true, if_false]
        have hwlek : w ≤ k := by
          by_contra hgt
          push_neg at hgt
          rw [List.any_eq_true] at hw
          obtain ⟨z, hz, hzW⟩ := hw
          have hz2 : z ∈ p.steps.take w := by
            have hrw : p.steps.take (k + 1) = (p.steps.take w).take (k + 1) := by
              rw [List.take_take]
              congr 1
              omega
            rw [hrw] at hz
            exact List.mem_of_mem_take hz
          rw [hWf z hz2] at hzW
          cases hzW
        have hwk : w < k := by
          rcases Nat.lt_or_ge w k with hlt | hge
          · exact hlt
          · exfalso
            have hwek : w = k := by omega
            subst hwek
            rw [hxd] at hyd
            have hxy : x = y := (List.cons.inj hyd).1
            have h1 : x.op = "COMMIT_PUSH_PR" := beq_iff_eq.mp hxPR
            have h2 : x.op = "WAIT_FOR_APPROVAL" := by
              rw [hxy]
              exact beq_iff_eq.mp hyW
            rw [h1] at h2
            exact absurd h2 (by decide)
        exact gated_of_insert_prop _ p.steps w k rfl hwk hA ⟨x, hxd, hxPR⟩ hWf ⟨y, hyd, hyW⟩

/-- The gate injection never adds or removes occurrences of any
operation other than the three it may insert. -/
lemma plan_has_op_ensure_gate (p : ExecutionPlan) (op : String)
    (h1 : op ≠ "CAPTURE_DIFF") (h2 : op ≠ "SET_STATUS") (h3 : op ≠ "WAIT_FOR_APPROVAL") :
    plan_has_op (ensure_pr_approval_gate p) op = plan_has_op p op := by
  have e1 : ("CAPTURE_DIFF" == op) = false := beq_eq_false_iff_ne.mpr (Ne.symm h1)
  have e2 : ("SET_STATUS" == op) = false := beq_eq_false_iff_ne.mpr (Ne.symm h2)
  have e3 : ("WAIT_FOR_APPROVAL" == op) = false := beq_eq_false_iff_ne.mpr (Ne.symm h3)
  cases hhas : plan_has_op p "COMMIT_PUSH_PR" with
  | false => rw [ensure_gate_no_pr hhas]
  | true =>
    unfold ensure_pr_approval_gate
    rw [hhas]
    simp only [Bool.not_true, Bool.false_eq_true, if_false]
    cases hpr : firstIdxWith (isOp "COMMIT_PUSH_PR") p.steps with
    | none => simp only [hpr]
    | some k =>
      simp only [hpr]
      cases hw : (p.steps.take (k + 1)).any (isOp "WAIT_FOR_APPROVAL") with
      | true =>
        simp only [hw, if_true]
        cases hwi : firstIdxWith (isOp "WAIT_FOR_APPROVAL") p.steps with
        | none => simp only [hwi]
        | some w =>
          simp only [hwi]
          cases hprop : (p.steps.take w).any isProposedStatus with
          | true => simp only [hprop, if_true]
          | false =>
            simp only [hprop, Bool.false_eq_true, if_false]
            show (p.steps.take w ++ proposedStep :: p.steps.drop w).any (fun s => s.op == op)
              = p.steps.any (fun s => s.op == op)
            rw [any_insertMiddle _ _ _ _ e2, List.take_append_drop]
      | false =>
        simp only [hw, Bool.false_eq_true, if_false]
        show (p.steps.take k ++
            ((if plan_has_op p "CAPTURE_DIFF" = true then [] else [captureDiffStep])
              ++ [proposedStep, waitStep]) ++ p.steps.drop k).any (fun s => s.op == op)
          = p.steps.any (fun s => s.op == op)
        have hins : ((if plan_has_op p "CAPTURE_DIFF" = true then [] else [captureDiffStep])
            ++ [proposedStep, waitStep]).any (fun s => s.op == op) = false := by
          cases hc : plan_has_op p "CAPTURE_DIFF" <;>
            simp [List.any_append, List.any_cons, captureDiffStep, proposedStep, waitStep,
              e1, e2, e3]
        rw [List.any_append, List.any_append, hins]
        simp only [Bool.or_false]
        rw [← List.any_append, List.take_append_drop]

/-- Governance injection does not change the permission verdict. -/
lemma audit_permissions_ensure_gate (p : ExecutionPlan) (policy : ModePolicy) :
    audit_permissions (ensure_pr_approval_gate p) policy = audit_permissions p policy := by
  unfold audit_permissions
  rw [plan_has_op_ensure_gate p "DELETE_FILE" (by decide) (by decide) (by decide),
    plan_has_op_ensure_gate p "APPLY_PATCH" (by decide) (by decide) (by decide)]

/-- `DELETE_FILE` is in the disallowed set when deletes are refused. -/
lemma contains_disallowedFor_delete {policy : ModePolicy}
    (hd : policy.allow_delete_file = false) :
    (disallowedFor policy).contains "DELETE_FILE" = true := by
  unfold disallowedFor
  rw [hd]
  cases policy.allow_apply_patch <;> decide

/-- `APPLY_PATCH` is in the disallowed set when patches are refused. -/
lemma contains_disallowedFor_patch {policy : ModePolicy}
    (hp : policy.allow_apply_patch = false) :
    (disallowedFor policy).contains "APPLY_PATCH" = true := by
  unfold disallowedFor
  rw [hp]
  cases policy.allow_delete_file <;> decide

/-- Filtering away a disallowed set removes its operations. -/
lemma plan_has_op_filter_disallowed (plan : ExecutionPlan) (ds : List String) (op : String)
    (hop : ds.contains op = true) :
    (plan.steps.filter (fun s => !(ds.contains s.op))).any (fun s => s.op == op) = false := by
  rw [List.any_eq_false]
  intro s hs
  rw [List.mem_filter] at hs
  obtain ⟨hs1, hs2⟩ := hs
  intro hcon
  have hsop : s.op = op := beq_iff_eq.mp hcon
  rw [hsop, hop] at hs2
  exact absurd hs2 (by decide)

/-- The stripped plan passes the permission check. -/
lemma audit_permissions_stripped (plan : ExecutionPlan) (policy : ModePolicy) :
    audit_permissions (strippedPlanWithNote plan policy) policy = none := by
  have hdel : (!policy.allow_delete_file
      && plan_has_op (strippedPlanWithNote plan policy) "DELETE_FILE") = false := by
    cases hd : policy.allow_delete_file with
    | true => simp
    | false =>
      have h3 : plan_has_op (strippedPlanWithNote plan policy) "DELETE_FILE" = false :=
        plan_has_op_filter_disallowed plan (disallowedFor policy) "DELETE_FILE"
          (contains_disallowedFor_delete hd)
      rw [h3]
      simp
  have hpat : (!policy.allow_apply_patch
      && plan_has_op (strippedPlanWithNote plan policy) "APPLY_PATCH") = false := by
    cases hp : policy.allow_apply_patch with
    | true => simp
    | false =>
      have h3 : plan_has_op (strippedPlanWithNote plan policy) "APPLY_PATCH" = false :=
        plan_has_op_filter_disallowed plan (disallowedFor policy) "APPLY_PATCH"
          (contains_disallowedFor_patch hp)
      rw [h3]
      simp
  unfold audit_permissions
  rw [hdel, hpat]
  simp

/-- A plan already satisfying scope, permissions and (when required)
gating passes through `audit_plan` with its steps unchanged. -/
lemma audit_plan_stable (p : ExecutionPlan) (policy : ModePolicy)
    (h1 : audit_scope p policy = none)
    (h2 : audit_permissions p policy = none)
    (h3 : policy.require_approval_before_pr = true → planGated p = true) :
    (audit_plan p policy).steps = p.steps := by
  have hgov : audit_pr_governance p policy = p := by
    unfold audit_pr_governance
    split_ifs with hr
    · exact ensure_gate_of_gated (h3 hr)
    · rfl
  unfold audit_plan auditPermPhase
  rw [h1, h2]
  simp only
  rw [hgov, h1]
  exact auditFinalize_steps p policy

/-- A forced-failure-shaped plan passes through `audit_plan` with its
steps unchanged. -/
lemma audit_plan_forced_stable (p : ExecutionPlan) (policy : ModePolicy) (a : PlanStep)
    (hs : p.steps = [a, failedStatusStep]) (ha : a.op = "ANALYZE_REPO") :
    (audit_plan p policy).steps = p.steps := by
  have hops : ∀ op : String, op ≠ "ANALYZE_REPO" → op ≠ "SET_STATUS" →
      plan_has_op p op = false := by
    intro op hne1 hne2
    have e1 : ("ANALYZE_REPO" == op) = false := beq_eq_false_iff_ne.mpr (Ne.symm hne1)
    have e2 : ("SET_STATUS" == op) = false := beq_eq_false_iff_ne.mpr (Ne.symm hne2)
    unfold plan_has_op
    rw [hs]
    simp [List.any_cons, ha, failedStatusStep, e1, e2]
  cases hsc : audit_scope p policy with
  | some e =>
    have hout : audit_plan p policy = (force_fail p e).plan := by
      unfold audit_plan
      rw [hsc]
    rw [hout]
    unfold force_fail
    rw [hs]
    simp only
    have hbeq : (a.op == "ANALYZE_REPO") = true := beq_iff_eq.mpr ha
    rw [hbeq]
    simp
  | none =>
    have hperm : audit_permissions p policy = none := by
      unfold audit_permissions
      rw [hops "DELETE_FILE" (by decide) (by decide),
        hops "APPLY_PATCH" (by decide) (by decide)]
      simp
    have hgate : policy.require_approval_before_pr = true → planGated p = true := by
      intro _
      have hno : firstIdxWith (isOp "COMMIT_PUSH_PR") p.steps = none := by
        cases hfi : firstIdxWith (isOp "COMMIT_PUSH_PR") p.steps with
        | none => rfl
        | some k =>
          have hany := any_of_firstIdxWith hfi
          have hop := hops "COMMIT_PUSH_PR" (by decide) (by decide)
          rw [plan_has_op_eq_any_isOp, hany] at hop
          exact absurd hop (by decide)
      unfold planGated
      simp only [hno]
    exact audit_plan_stable p policy hsc hperm hgate

/-- Every `audit_plan` output is either forced-failure-shaped or passes
scope, permissions and (when required) gating. -/
lemma audit_plan_output_cases (plan : ExecutionPlan) (policy : ModePolicy) :
    (∃ a, (audit_plan plan policy).steps = [a, failedStatusStep] ∧ a.op = "ANALYZE_REPO") ∨
    (audit_scope (audit_plan plan policy) policy = none ∧
     audit_permissions (audit_plan plan policy) policy = none ∧
     (policy.require_approval_before_pr = true →
       planGated (audit_plan plan policy) = true)) := by
  cases hsc : audit_scope plan policy with
  | some e =>
    left
    have hout : audit_plan plan policy = (force_fail plan e).plan := by
      unfold audit_plan
      rw [hsc]
    rw [hout]
    exact force_fail_steps plan e
  | none =>
    cases hpp : auditPermPhase plan policy with
    | error f =>
      left
      have hshape : ∃ r, f = (force_fail plan r).plan := by
        unfold auditPermPhase at hpp
        cases hp : audit_permissions plan policy with
        | none =>
          rw [hp] at hpp
          cases hpp
        | some e2 =>
          rw [hp] at hpp
          simp only at hpp
          split_ifs at hpp with hcond
          exact ⟨_, (Except.error.inj hpp).symm⟩
      obtain ⟨r, hr⟩ := hshape
      have hout : audit_plan plan policy = (force_fail plan r).plan := by
        unfold audit_plan
        rw [hsc, hpp, hr]
      rw [hout]
      exact force_fail_steps plan r
    | ok plan2 =>
      have hperm2 : audit_permissions plan2 policy = none := by
        unfold auditPermPhase at hpp
        cases hp : audit_permissions plan policy with
        | none =>
          rw [hp] at hpp
          have h2 : plan = plan2 := Except.ok.inj hpp
          rw [← h2]
          exact hp
        | some e2 =>
          rw [hp] at hpp
          simp only at hpp
          split_ifs at hpp with hcond
          have h2 : plan2 = strippedPlanWithNote plan policy :=
            (Except.ok.inj hpp).symm
          rw [h2]
          exact audit_permissions_stripped plan policy
      have hperm3 : audit_permissions (audit_pr_governance plan2 policy) policy = none := by
        unfold audit_pr_governance
        split_ifs with hr
        · rw [audit_permissions_ensure_gate]
          exact hperm2
        · exact hperm2
      have hgate3 : policy.require_approval_before_pr = true →
          planGated (audit_pr_governance plan2 policy) = true := by
        intro hr
        unfold audit_pr_governance
        rw [if_pos hr]
        exact ensure_gate_gated plan2
      cases hsc3 : audit_scope (audit_pr_governance plan2 policy) policy with
      | some e2 =>
        left
        have hout : audit_plan plan policy
            = (force_fail (audit_pr_governance plan2 policy)
                ("post-rewrite: " ++ e2)).plan := by
          unfold audit_plan
          rw [hsc, hpp]
          simp only
          rw [hsc3]
        rw [hout]
        exact force_fail_steps (audit_pr_governance plan2 policy) ("post-rewrite: " ++ e2)
      | none =>
        right
        have hout : audit_plan plan policy
            = auditFinalize (audit_pr_governance plan2 policy) policy := by
          unfold audit_plan
          rw [hsc, hpp]
          simp only
          rw [hsc3]
        have hsteps : (audit_plan plan policy).steps
            = (audit_pr_governance plan2 policy).steps := by
          rw [hout]
          exact auditFinalize_steps (audit_pr_governance plan2 policy) policy
        refine ⟨?_, ?_, ?_⟩
        · rw [audit_scope_congr policy hsteps]
          exact hsc3
        · rw [audit_permissions_congr policy hsteps]
          exact hperm3
        · intro hr
          rw [planGated_congr hsteps]
          exact hgate3 hr

/-! ## Claim theorems -/

/-- C1: `compute_confidence` returns exactly 1.0 on `confBugInput`
although the zero-blast-radius gate fails (`impacted_files_count = 2`,
so `perfectGate` is false): the additive score reaches 1.05, the clamp
caps it at 1.0, and the strict override's else-branch returns that
clamped value unchanged.  This contradicts the function's own docstring
and trailing comment ("Make 1.0 truly strict / Only allow perfect when
all gates match"), so 1.0 is not reserved for the eight-gate
conjunction. -/
theorem C1_confidence_one_despite_failed_gate :
    compute_confidence confBugInput = 1 ∧
    perfectGate confBugInput = false ∧
    confBugInput.impacted_files_count ≠ 0 := by
  refine ⟨?_, by decide, by decide⟩
  norm_num [compute_confidence, confBugInput, perfectGate]

/-- C4: for every CI outcome and attempt count, `should_retry_from_ci`
retries the `infra` and `flaky` categories exactly while previous
attempts are below 3 with a fixed 300-second backoff, never retries
`legit`, and retries `unknown` exactly when previous attempts are 0. -/
theorem C4_retry_policy_bounds (o : CIOutcome) (n : Int) :
    ((o.category = "infra" ∨ o.category = "flaky") →
      (((should_retry_from_ci (some o) n).should_retry = true) ↔ n < 3) ∧
      (should_retry_from_ci (some o) n).backoff_seconds = 300) ∧
    (o.category = "legit" →
      (should_retry_from_ci (some o) n).should_retry = false) ∧
    (o.category = "unknown" →
      (((should_retry_from_ci (some o) n).should_retry = true) ↔ n = 0)) := by
  refine ⟨fun h => ?_, fun h => ?_, fun h => ?_⟩
  · simp only [should_retry_from_ci]
    rw [if_pos h]
    by_cases hn : n < 3
    · rw [if_pos hn]
      exact ⟨by simp [hn], rfl⟩
    · rw [if_neg hn]
      exact ⟨by simp [hn], rfl⟩
  · have h1 : ¬(o.category = "infra" ∨ o.category = "flaky") := by rw [h]; decide
    simp only [should_retry_from_ci]
    rw [if_neg h1, if_pos h]
  · have h1 : ¬(o.category = "infra" ∨ o.category = "flaky") := by rw [h]; decide
    have h2 : ¬(o.category = "legit") := by rw [h]; decide
    simp only [should_retry_from_ci]
    rw [if_neg h1, if_neg h2]
    by_cases hn : n = 0
    · rw [if_pos hn]
      simp [hn]
    · rw [if_neg hn]
      simp [hn]

/-- Witness for C4 at the concrete outcome category `infra` with 0 prior
attempts. -/
theorem C4_retry_policy_bounds_witness :
    (should_retry_from_ci (some ⟨"infra", [], [], ""⟩) 0).should_retry = true :=
  ((C4_retry_policy_bounds ⟨"infra", [], [], ""⟩ 0).1 (Or.inl rfl)).1.mpr (by decide)

/-- C10: an outcome classified `unit_fail` has failing tests but no
failing files, and `should_retry_from_ci` handles it in the final
unknown-category branch: retry exactly when previous attempts are 0. -/
theorem C10_unit_fail_falls_to_unknown_branch (e : CIEvidence) (n : Int)
    (h : (classify_ci_outcome e).category = "unit_fail") :
    (classify_ci_outcome e).failing_files = [] ∧
    (classify_ci_outcome e).failing_tests ≠ [] ∧
    (((should_retry_from_ci (some (classify_ci_outcome e)) n).should_retry = true) ↔ n = 0) := by
  have h1 : ¬((classify_ci_outcome e).category = "infra" ∨
      (classify_ci_outcome e).category = "flaky") := by rw [h]; decide
  have h2 : ¬((classify_ci_outcome e).category = "legit") := by rw [h]; decide
  refine ⟨?_, ?_, ?_⟩
  · simp only [classify_ci_outcome] at h ⊢
    split_ifs at h with ha hb hc hd
    · exact absurd h (by decide)
    · exact absurd h (by decide)
    · exact List.length_eq_zero.mp hc.1
    · exact absurd h (by decide)
    · exact absurd h (by decide)
  · simp only [classify_ci_outcome] at h ⊢
    split_ifs at h with ha hb hc hd
    · exact absurd h (by decide)
    · exact absurd h (by decide)
    · intro hnil
      have := hc.2
      rw [hnil] at this
      exact absurd this (by decide)
    · exact absurd h (by decide)
    · exact absurd h (by decide)
  · simp only [should_retry_from_ci]
    rw [if_neg h1, if_neg h2]
    by_cases hn : n = 0
    · rw [if_pos hn]
      simp [hn]
    · rw [if_neg hn]
      simp [hn]

/-- Witness for C10 at evidence with one failing test, no failing files
and a vocabulary-free excerpt, with 0 prior attempts. -/
theorem C10_unit_fail_falls_to_unknown_branch_witness :
    (should_retry_from_ci
      (some (classify_ci_outcome ⟨some [], some ["test_a"], some "AssertionError"⟩)) 0).should_retry
      = true :=
  (C10_unit_fail_falls_to_unknown_branch ⟨some [], some ["test_a"], some "AssertionError"⟩ 0
    (by decide)).2.2.mpr rfl

/-- C5: the policy resolver is monotonic in confidence — for
`c1 ≤ c2`, the policy resolved from `c1` is no more permissive than the
policy resolved from `c2`: each numeric limit at `c1` is at most the
limit at `c2`, each permission granted at `c1` is granted at `c2`, and
each governance requirement imposed at `c2` is imposed at `c1`. -/
theorem C5_resolver_monotone_in_confidence (c1 c2 : ℚ) (h : c1 ≤ c2) :
    noMorePermissive
      (resolve_engineering_mode (some (IntentObj.dict (some (ConfVal.val c1)))))
      (resolve_engineering_mode (some (IntentObj.dict (some (ConfVal.val c2))))) := by
  unfold noMorePermissive resolve_engineering_mode get_confidence resolveFromConfidence
  split_ifs <;> first | decide | linarith

/-- Witness for C5 at confidences 0.3 ≤ 0.9. -/
theorem C5_resolver_monotone_in_confidence_witness :
    noMorePermissive
      (resolve_engineering_mode (some (IntentObj.dict (some (ConfVal.val (3/10))))))
      (resolve_engineering_mode (some (IntentObj.dict (some (ConfVal.val (9/10)))))) :=
  C5_resolver_monotone_in_confidence (3/10) (9/10) (by norm_num)

/-- C9: the policy resolver is a total, failure-closed function — on
every input it yields one of its three named policies, and on every
malformed or missing input (no intent object, a non-dict, an absent
`"confidence"` key, or a value `float()` rejects) the confidence
collapses to 0.0 and the resolver yields the most conservative SAFE
policy.  Totality (the "never raises" half) is expressed by
`resolve_engineering_mode` being a total Lean function covering all
such inputs. -/
theorem C9_resolver_total_failure_closed (intent_obj : Option IntentObj) :
    (resolve_engineering_mode intent_obj = safePolicy ∨
     resolve_engineering_mode intent_obj = standardPolicy ∨
     resolve_engineering_mode intent_obj = aggressivePolicy) ∧
    (malformedIntent intent_obj = true →
      get_confidence intent_obj = 0 ∧ resolve_engineering_mode intent_obj = safePolicy) := by
  constructor
  · unfold resolve_engineering_mode resolveFromConfidence
    split_ifs <;> simp
  · intro hm
    have h0 : get_confidence intent_obj = 0 := by
      cases intent_obj with
      | none => rfl
      | some io =>
        cases io with
        | notADict => rfl
        | dict c =>
          cases c with
          | none => rfl
          | some cv =>
            cases cv with
            | notAFloat => rfl
            | val q => exact absurd hm (by simp [malformedIntent])
    refine ⟨h0, ?_⟩
    unfold resolve_engineering_mode resolveFromConfidence
    rw [h0, if_pos (by norm_num)]

/-- Witness for C9 at a missing intent object. -/
theorem C9_resolver_total_failure_closed_witness :
    resolve_engineering_mode none = safePolicy :=
  ((C9_resolver_total_failure_closed none).2 rfl).2

/-- C6: the safety verifier rejects every change whose top-level imports
signature differs between old and new content, and every change whose
top-level function/class definition signature differs — for every
changed-line count and every budget, since both signature checks
short-circuit before the line-budget check. -/
theorem C6_verifier_rejects_structural_change
    (diff : Content → Content → Int) (old_content new_content : Content)
    (budget : Int) (mo mn : PyModule)
    (ho : old_content.parsed = some mo) (hn : new_content.parsed = some mn)
    (hdiffer : imports_signature mn ≠ imports_signature mo ∨
      top_defs_signature mn ≠ top_defs_signature mo) :
    (verify_safe_change diff old_content new_content budget).1 = false := by
  unfold verify_safe_change
  simp only [ho, hn]
  split_ifs with h1 h2 h3 h4 h5 <;> try rfl
  · exact absurd hdiffer (by push_neg; exact ⟨not_not.mp h3, not_not.mp h4⟩)

/-- Witness for C6: removing the single `import os` line is rejected
even with a huge budget and a diff reporting one changed line. -/
theorem C6_verifier_rejects_structural_change_witness :
    (verify_safe_change (fun _ _ => 1) (contentOf moduleImportOs)
      (contentOf moduleEmpty) 25).1 = false :=
  C6_verifier_rejects_structural_change (fun _ _ => 1) (contentOf moduleImportOs)
    (contentOf moduleEmpty) 25 moduleImportOs moduleEmpty rfl rfl (Or.inl (by decide))

/-- C2: whenever any of the three scope limits is breached —
step count, mutation count, or distinct-mutated-path count —
`audit_plan` returns exactly the forced-failure plan: one analysis step
followed by one `SET_STATUS(FAILED)` step, the breach reason appended to
the stripped notes, with no partial rewrite.  Totality (the "never
raises" half) is expressed by `audit_plan` being a total Lean function. -/
theorem C2_scope_breach_forces_failure (plan : ExecutionPlan) (policy : ModePolicy)
    (h : (plan.steps.length : Int) > policy.max_steps ∨
         ((collect_mutation_paths plan).1 : Int) > policy.max_file_mutations ∨
         (((collect_mutation_paths plan).2.length : Int) > policy.max_unique_paths_mutated)) :
    ∃ r a, audit_plan plan policy = (force_fail plan r).plan ∧
      (audit_plan plan policy).steps = [a, failedStatusStep] ∧
      a.op = "ANALYZE_REPO" ∧
      (audit_plan plan policy).notes =
        (if pyStrip plan.notes ≠ "" then pyStrip plan.notes ++ " | AUDIT_FAIL: " ++ r
         else "AUDIT_FAIL: " ++ r) := by
  have hscope : ∃ r, audit_scope plan policy = some r := by
    by_cases hn : audit_scope plan policy = none
    · rw [audit_scope_eq_none_iff] at hn
      rcases h with h | h | h <;> omega
    · exact Option.ne_none_iff_exists'.mp hn
  obtain ⟨r, hr⟩ := hscope
  have hmain : audit_plan plan policy = (force_fail plan r).plan := by
    unfold audit_plan
    rw [hr]
  obtain ⟨a, ha1, ha2⟩ := force_fail_steps plan r
  refine ⟨r, a, hmain, by rw [hmain]; exact ha1, ha2, ?_⟩
  rw [hmain]
  exact force_fail_notes plan r

/-- Witness for C2: a 19-step plan under the 18-step SAFE policy
force-fails to a two-step plan. -/
theorem C2_scope_breach_forces_failure_witness :
    (audit_plan planTooLarge safePolicy).steps.length = 2 := by
  obtain ⟨r, a, h1, h2, h3, h4⟩ :=
    C2_scope_breach_forces_failure planTooLarge safePolicy (Or.inl (by decide))
  rw [h2]
  rfl

/-- C3 (counterexample): under the approval-requiring SAFE policy, the
plan `[WAIT_FOR_APPROVAL, COMMIT_PUSH_PR]` contains a `COMMIT_PUSH_PR`
step, yet the audited plan contains no `CAPTURE_DIFF` step at all — the
gate injection skips the diff-capture (and runs only the
`SET_STATUS(PROPOSED)` repair) whenever a `WAIT_FOR_APPROVAL` already
sits at or before the first `COMMIT_PUSH_PR`.  This refutes the claim
that every audited plan with a `COMMIT_PUSH_PR` carries a `CAPTURE_DIFF`
before it. -/
theorem C3_counterexample_no_capture_diff :
    safePolicy.require_approval_before_pr = true ∧
    plan_has_op planWaitPr "COMMIT_PUSH_PR" = true ∧
    (audit_plan planWaitPr safePolicy).steps.any (fun s => s.op == "CAPTURE_DIFF") = false := by
  refine ⟨rfl, by decide, by decide⟩

/-- C3 (amended): for a plan whose first `COMMIT_PUSH_PR` has no
`WAIT_FOR_APPROVAL` at or before it and that has no `CAPTURE_DIFF`
anywhere, under an approval-requiring policy and with the scope and
permission checks passing (before and after injection), the audited
plan inserts exactly `CAPTURE_DIFF`, `SET_STATUS(PROPOSED)`,
`WAIT_FOR_APPROVAL`, in that order, immediately before the first
`COMMIT_PUSH_PR` step, retaining all pre-existing steps in their
original relative order. -/
theorem C3_amended_gate_insertion (plan : ExecutionPlan) (policy : ModePolicy) (k : Nat)
    (hreq : policy.require_approval_before_pr = true)
    (hpr : firstIdxWith (isOp "COMMIT_PUSH_PR") plan.steps = some k)
    (hwait : (plan.steps.take (k + 1)).any (isOp "WAIT_FOR_APPROVAL") = false)
    (hcap : plan_has_op plan "CAPTURE_DIFF" = false)
    (hscope : audit_scope plan policy = none)
    (hperm : audit_permissions plan policy = none)
    (hscope2 : audit_scope (ensure_pr_approval_gate plan) policy = none) :
    (audit_plan plan policy).steps =
      plan.steps.take k ++ [captureDiffStep, proposedStep, waitStep] ++ plan.steps.drop k := by
  have hhas : plan_has_op plan "COMMIT_PUSH_PR" = true := any_of_firstIdxWith hpr
  have hgate : (ensure_pr_approval_gate plan).steps =
      plan.steps.take k ++ [captureDiffStep, proposedStep, waitStep] ++ plan.steps.drop k := by
    unfold ensure_pr_approval_gate
    rw [hhas]
    simp only [Bool.not_true, Bool.false_eq_true, if_false, hpr, hwait, hcap]
    rfl
  unfold audit_plan auditPermPhase
  rw [hscope, hperm]
  simp only
  unfold audit_pr_governance
  rw [hreq]
  simp only [if_pos]
  rw [hscope2]
  simp only
  rw [auditFinalize_steps]
  exact hgate

/-- Witness for C3 (amended) at the plan
`[ANALYZE_REPO, EDIT_FILE, COMMIT_PUSH_PR]` under the SAFE policy. -/
theorem C3_amended_gate_insertion_witness :
    (audit_plan planUngated safePolicy).steps =
      [analyzeStep, editStep, captureDiffStep, proposedStep, waitStep, prStep] := by
  have h := C3_amended_gate_insertion planUngated safePolicy 2 rfl (by decide) (by decide)
    (by decide) (by decide) (by decide) (by decide)
  simpa [planUngated] using h

/-- The permission branch keeps the stripped-and-noted plan when it
stays meaningful. -/
lemma auditPermPhase_ok (plan : ExecutionPlan) (policy : ModePolicy) (e : String)
    (hperm : audit_permissions plan policy = some e)
    (hdeg : ¬((strip_disallowed_ops plan (disallowedFor policy)).1.steps.any meaningfulStep = false ∨
      (strip_disallowed_ops plan (disallowedFor policy)).1.steps.length ≤ 2)) :
    auditPermPhase plan policy = Except.ok (strippedPlanWithNote plan policy) := by
  unfold auditPermPhase
  rw [hperm]
  simp only
  rw [if_neg hdeg]
  rfl

/-- C7 (counterexample): the plan
`[ANALYZE_REPO, EDIT_FILE, DELETE_FILE, RUN_TESTS_SAFE, COMMIT_PUSH_PR]`
under the no-delete SAFE policy carries a disallowed `DELETE_FILE`, and
its stripped plan keeps 4 steps of meaningful work, yet the audited plan
is not the stripped plan: governance injection adds the approval-gate
steps afterwards, so `audit_plan` does not return the stripped plan
as claimed. -/
theorem C7_counterexample_not_just_stripped :
    plan_has_op planDeletePr "DELETE_FILE" = true ∧
    safePolicy.allow_delete_file = false ∧
    (strip_disallowed_ops planDeletePr (disallowedFor safePolicy)).1.steps.length = 4 ∧
    (strip_disallowed_ops planDeletePr (disallowedFor safePolicy)).1.steps.any meaningfulStep
      = true ∧
    (audit_plan planDeletePr safePolicy).steps ≠
      (strip_disallowed_ops planDeletePr (disallowedFor safePolicy)).1.steps := by
  refine ⟨by decide, rfl, by decide, by decide, by decide⟩

/-- C7 (amended): for an in-scope plan carrying disallowed operations
and no `COMMIT_PUSH_PR` step (so that the later governance injection
cannot rewrite further), `audit_plan` strips exactly the disallowed
steps; if fewer than 3 steps or no non-trivial work remains, it returns
the forced-failure plan, otherwise it returns the stripped plan with an
audit note naming the removed operations. -/
theorem C7_amended_strip_behavior (plan : ExecutionPlan) (policy : ModePolicy) (e : String)
    (hscope : audit_scope plan policy = none)
    (hperm : audit_permissions plan policy = some e)
    (hnopr : plan_has_op plan "COMMIT_PUSH_PR" = false) :
    (((strip_disallowed_ops plan (disallowedFor policy)).1.steps.any meaningfulStep = false ∨
      (strip_disallowed_ops plan (disallowedFor policy)).1.steps.length ≤ 2) →
      ∃ a, (audit_plan plan policy).steps = [a, failedStatusStep] ∧ a.op = "ANALYZE_REPO") ∧
    (¬((strip_disallowed_ops plan (disallowedFor policy)).1.steps.any meaningfulStep = false ∨
      (strip_disallowed_ops plan (disallowedFor policy)).1.steps.length ≤ 2) →
      audit_plan plan policy = strippedPlanWithNote plan policy) := by
  constructor
  · intro hdeg
    have hmain : audit_plan plan policy = (force_fail plan
        (e ++ "; removed=" ++ toString (strip_disallowed_ops plan (disallowedFor policy)).2
          ++ " left no meaningful steps")).plan := by
      unfold audit_plan auditPermPhase
      rw [hscope, hperm]
      simp only
      rw [if_pos hdeg]
    rw [hmain]
    exact force_fail_steps plan _
  · intro hdeg
    have hphase := auditPermPhase_ok plan policy e hperm hdeg
    have hnoprS : plan_has_op (strippedPlanWithNote plan policy) "COMMIT_PUSH_PR" = false := by
      have h0 : plan.steps.any (fun s => s.op == "COMMIT_PUSH_PR") = false := hnopr
      exact any_filter_eq_false h0
    have hscopeS : audit_scope (strippedPlanWithNote plan policy) policy = none := by
      refine audit_scope_none_sublist ?_ hscope
      exact List.filter_sublist plan.steps
    unfold audit_plan
    rw [hscope, hphase]
    simp only
    rw [audit_pr_governance_no_pr policy hnoprS, hscopeS]
    simp only
    exact auditFinalize_no_pr policy hnoprS

/-- Witness for C7 (amended) at the plan
`[ANALYZE_REPO, EDIT_FILE, DELETE_FILE, RUN_TESTS_SAFE]` under the SAFE
policy: the delete step is stripped and the rest survives. -/
theorem C7_amended_strip_behavior_witness :
    audit_plan planDeleteNoPr safePolicy = strippedPlanWithNote planDeleteNoPr safePolicy :=
  (C7_amended_strip_behavior planDeleteNoPr safePolicy "DELETE_FILE not allowed in this mode"
    (by decide) (by decide) (by decide)).2 (by decide)


/-- C8 (counterexample): the plan
`[WAIT_FOR_APPROVAL, CAPTURE_DIFF, SET_STATUS(PROPOSED), WAIT_FOR_APPROVAL, COMMIT_PUSH_PR]`
already carries the `CAPTURE_DIFF`, `SET_STATUS(PROPOSED)`,
`WAIT_FOR_APPROVAL` sequence immediately before its `COMMIT_PUSH_PR`
step, yet the approval-gate injection still inserts a step (a
`SET_STATUS(PROPOSED)` before the stray first `WAIT_FOR_APPROVAL`), so
the audited step sequence grows: the no-insertion part of the claim is
false as stated. -/
theorem C8_counterexample_stray_wait :
    planStrayWait.steps = [waitStep, captureDiffStep, proposedStep, waitStep, prStep] ∧
    (ensure_pr_approval_gate planStrayWait).steps ≠ planStrayWait.steps ∧
    (audit_plan planStrayWait safePolicy).steps ≠ planStrayWait.steps := by
  refine ⟨rfl, by decide, by decide⟩

/-- C8 (amended): auditing is idempotent on the step sequence for every
plan and policy — a second `audit_plan` under the same policy never
changes the steps of the first audit's output; and the approval-gate
injection makes no insertion into a plan that is gated in the precise
sense the injection tests: a `WAIT_FOR_APPROVAL` at or before the first
`COMMIT_PUSH_PR` and a `SET_STATUS(PROPOSED)` before the plan's first
`WAIT_FOR_APPROVAL` (a stray earlier wait without a preceding
proposed-status defeats the no-insertion guarantee, as the
counterexample shows). -/
theorem C8_amended_idempotent_audit (plan : ExecutionPlan) (policy : ModePolicy) :
    (audit_plan (audit_plan plan policy) policy).steps = (audit_plan plan policy).steps ∧
    (planGated plan = true → (ensure_pr_approval_gate plan).steps = plan.steps) := by
  constructor
  · rcases audit_plan_output_cases plan policy with ⟨a, h1, h2⟩ | ⟨h1, h2, h3⟩
    · exact audit_plan_forced_stable _ policy a h1 h2
    · exact audit_plan_stable _ policy h1 h2 h3
  · intro h
    rw [ensure_gate_of_gated h]

/-- Witness for C8 (amended) at a fully gated plan under the SAFE
policy. -/
theorem C8_amended_idempotent_audit_witness :
    (audit_plan (audit_plan planFullyGated safePolicy) safePolicy).steps =
      (audit_plan planFullyGated safePolicy).steps ∧
    (ensure_pr_approval_gate planFullyGated).steps = planFullyGated.steps :=
  ⟨(C8_amended_idempotent_audit planFullyGated safePolicy).1,
   (C8_amended_idempotent_audit planFullyGated safePolicy).2 (by decide)⟩

end AISWE
